import Mathlib

/-!
Shallow embedding of the core orchestration engine of `src/llm_ensemble.py`
(repository kossakowski/prompt-optimizer): label sanitisation, model-list
parsing, task expansion, the two provider runners (`GeminiRunner.run`,
`CodexRunner.run`), context-file ingestion, scheduler result collection and
sorting, and merge-prompt assembly.  External effects (file opens, the child
process, the JSON envelope on disk) are modelled by explicit environment
records; exceptions escaping a Python function are modelled by a dedicated
result constructor.
-/

namespace LLMEnsemble

/-! ## Label sanitisation (`sanitize_label`, llm_ensemble.py lines 87-89)

Python: `re.sub(r'[^a-zA-Z0-9._-]', '_', text)` — every character outside
the class `[a-zA-Z0-9._-]` is replaced, character by character, with `_`. -/

def isAllowedChar (c : Char) : Bool :=
  (('a' ≤ c && c ≤ 'z') || ('A' ≤ c && c ≤ 'Z') || ('0' ≤ c && c ≤ '9')
    || c == '.' || c == '_' || c == '-')

def sanitizeChar (c : Char) : Char :=
  if isAllowedChar c then c else '_'

def sanitize_label (s : String) : String :=
  ⟨s.data.map sanitizeChar⟩

/-! ## Python-style string primitives

`str.split`, `str.strip`, `str.lower`, `str.replace(" ", "")` and the
code-point lexicographic comparison used by `list.sort(key=...)` are
re-implemented structurally over `List Char` so that all definitions
evaluate inside the kernel. -/

/-- Python `str.split(sep)` for a one-character separator: splits on every
occurrence, keeping empty pieces (`"".split(',') == ['']`). -/
def pySplit (sep : Char) : List Char → List (List Char)
  | [] => [[]]
  | c :: rest =>
    let r := pySplit sep rest
    if c = sep then
      [] :: r
    else
      match r with
      | [] => [[c]]
      | piece :: more => (c :: piece) :: more

/-- ASCII whitespace stripped by Python `str.strip()` (the identifiers fed to
the model parser are ASCII command-line text). -/
def isPySpace (c : Char) : Bool :=
  c = ' ' || c = '\t' || c = '\n' || c = '\x0d' || c = '\x0b' || c = '\x0c'

def pyStripLeft : List Char → List Char
  | [] => []
  | c :: rest => if isPySpace c then pyStripLeft rest else c :: rest

def pyStrip (l : List Char) : List Char :=
  (pyStripLeft (pyStripLeft l.reverse)).reverse

/-- ASCII `str.lower()` (model identifiers are ASCII). -/
def pyLowerChar (c : Char) : Char :=
  if 'A' ≤ c && c ≤ 'Z' then Char.ofNat (c.toNat + 32) else c

def pyLower (l : List Char) : List Char := l.map pyLowerChar

/-- Python `str.replace(" ", "")`: every space character is removed. -/
def removeSpaces (l : List Char) : List Char := l.filter (fun c => !(c = ' '))

/-- Python `str.split(':', 1)`: the part before the first colon and the part
after it (`none` when there is no colon). -/
def splitFirstColon : List Char → (List Char × Option (List Char))
  | [] => ([], none)
  | c :: rest =>
    if c = ':' then ([], some rest)
    else
      let (pre, post) := splitFirstColon rest
      (c :: pre, post)

/-- Code-point lexicographic `≤` on character lists — the order Python uses
to compare the `str` sort keys in `results.sort(key=lambda p: p.name)`. -/
def lexLe : List Char → List Char → Bool
  | [], _ => true
  | _ :: _, [] => false
  | a :: as, b :: bs =>
    if a.toNat < b.toNat then true
    else if b.toNat < a.toNat then false
    else lexLe as bs

def strLe (a b : String) : Prop := lexLe a.data b.data = true

instance : DecidableRel strLe := fun a b => by
  unfold strLe; infer_instance

instance {ε α : Type} [DecidableEq ε] [DecidableEq α] : DecidableEq (Except ε α) :=
  fun a b =>
    match a, b with
    | .ok x, .ok y =>
      if h : x = y then .isTrue (by rw [h]) else .isFalse (by intro hc; cases hc; exact h rfl)
    | .error x, .error y =>
      if h : x = y then .isTrue (by rw [h]) else .isFalse (by intro hc; cases hc; exact h rfl)
    | .ok _, .error _ => .isFalse (by intro hc; cases hc)
    | .error _, .ok _ => .isFalse (by intro hc; cases hc)

/-! ## Data model: providers, runners, tasks -/

inductive Provider where
  | gemini
  | codex
deriving DecidableEq, Repr

/-- One entry of `self.runners_list`: a `(provider, model, label)` tuple. -/
structure Runner where
  provider : Provider
  model : String
  label : String
deriving DecidableEq, Repr

/-- One fan-out task `(provider, model, label, iteration_idx)` as built at the
top of `EnsembleApp.execute_parallel`. -/
structure Task where
  provider : Provider
  model : String
  label : String
  iter : Nat
deriving DecidableEq, Repr

/-- Task identity key `(label, iteration_index)`. -/
def taskKey (t : Task) : String × Nat := (t.label, t.iter)

/-- Derived artifact file name `f"{label}_run_{i}.txt"` for a task's output. -/
def taskOutName (t : Task) : String := t.label ++ "_run_" ++ toString t.iter ++ ".txt"

/-! ## Model-list parsing (`EnsembleApp.validate_and_setup`, step 3,
llm_ensemble.py lines 492-528)

The CSV is split on commas, each entry is stripped, lowercased and has all
spaces removed, then split at the first colon into provider and model; an
empty model falls back to the configured default; labels are
`f"{provider}__{sanitize_label(model)}"`.  The loop also records
`found_codex_model`: the first codex entry with a non-empty model. -/

def mkRunsEntry (gemDefault codDefault : String) (entry : List Char) :
    Except String (Option Runner) :=
  let norm := removeSpaces (pyLower entry)
  if norm = [] then .ok none
  else
    let (provChars, modelOpt) := splitFirstColon norm
    let provider : String := ⟨provChars⟩
    let model : String := ⟨(modelOpt.getD [])⟩
    if provider = "gemini" then
      let m := if model = "" then gemDefault else model
      .ok (some ⟨.gemini, m, "gemini__" ++ sanitize_label m⟩)
    else if provider = "codex" then
      let m := if model = "" then codDefault else model
      .ok (some ⟨.codex, m, "codex__" ++ sanitize_label m⟩)
    else
      .error ("Unknown provider in --models: " ++ provider ++ " (allowed: gemini, codex)")

def parseModelsGo (gemDefault codDefault : String) :
    List (List Char) → List Runner → Option String →
    Except String (List Runner × Option String)
  | [], acc, found =>
    if acc = [] then .error "No valid runners parsed from --models"
    else .ok (acc, found)
  | e :: rest, acc, found =>
    match mkRunsEntry gemDefault codDefault e with
    | .error msg => .error msg
    | .ok none => parseModelsGo gemDefault codDefault rest acc found
    | .ok (some r) =>
      let found' :=
        if found = none ∧ r.provider = .codex ∧ r.model ≠ "" then some r.model else found
      parseModelsGo gemDefault codDefault rest (acc ++ [r]) found'

/-- Step 3 of `validate_and_setup`: returns `(runners_list, found_codex_model)`
or the `die` message. -/
def parseModels (modelsCsv gemDefault codDefault : String) :
    Except String (List Runner × Option String) :=
  parseModelsGo gemDefault codDefault
    ((pySplit ',' modelsCsv.data).map pyStrip) [] none

/-- Recomputation of `found_codex_model` from the finished runner list: the first
codex runner with a non-empty model string. -/
def findCodexModel (rs : List Runner) : Option String :=
  rs.findSome? fun r =>
    if r.provider = .codex ∧ r.model ≠ "" then some r.model else none

/-! ## Task expansion and the scheduler (`EnsembleApp.execute_parallel`,
llm_ensemble.py lines 538-576) -/

/-- The pure fan-out expansion: for every runner, iterations `1..N`. -/
def expandTasks (rs : List Runner) (n : Nat) : List Task :=
  rs.flatMap fun r => (List.range' 1 n).map fun i => ⟨r.provider, r.model, r.label, i⟩

/-- What the `as_completed` collection loop appends: tasks arrive in an
arbitrary completion order; a task whose worker thread raised an exception is
logged and skipped, every other task contributes its output artifact name. -/
def collectResults (completionOrder : List Task) (raised : Task → Bool) : List String :=
  (completionOrder.filter (fun t => !raised t)).map taskOutName

/-- Value returned by `execute_parallel`: the collected artifact names sorted
by file name (`results.sort(key=lambda p: p.name)`; all artifacts live in the
same `Runs` directory, so path order is file-name order). -/
def executeParallel (completionOrder : List Task) (raised : Task → Bool) : List String :=
  List.insertionSort strLe (collectResults completionOrder raised)

/-! ## Provider invokers (`GeminiRunner.run` / `CodexRunner.run`,
llm_ensemble.py lines 208-305)

External effects are an explicit environment: whether each `open(...)` call
succeeds, how the child process behaves, and what the intermediate JSON
envelope contains.  A Python exception escaping `run` is the `raises`
constructor; `returns ok text` means `run` returned the boolean `ok` with
`text` as the final content of the output artifact. -/

/-- Exception classes that can cross the invoker boundary in the model. -/
inductive ExnKind where
  | ioError
  | attributeError
deriving DecidableEq, Repr

inductive RunResult where
  /-- normal return of `run`; `output` is what the output artifact holds. -/
  | returns (success : Bool) (output : String)
  /-- an exception escaped `run`. -/
  | raises (e : ExnKind)
  /-- case where `run` never returns (the blocking call blocks forever). -/
  | hangs
deriving DecidableEq, Repr

/-- Behaviour of the external backend process. -/
inductive ProcBehavior where
  | terminates (duration : Nat) (exitCode : Int)
  | hangs
deriving DecidableEq, Repr

inductive SubprocResult where
  | completed (exitCode : Int)
  /-- timeout expiry (`subprocess.TimeoutExpired`) after `secs` seconds; `subprocess.run`
  kills the child process before raising. -/
  | timedOut (secs : Int)
  | neverReturns
deriving DecidableEq, Repr

/-- Semantics of `subprocess.run(..., timeout=t if t > 0 else None, check=True)`:
with no timeout the call blocks for as long as the process runs; with a
timeout it raises `TimeoutExpired` when the process outlives it. -/
def subprocessRun : Option Int → ProcBehavior → SubprocResult
  | none, .terminates _ code => .completed code
  | none, .hangs => .neverReturns
  | some t, .terminates d code => if (d : Int) > t then .timedOut t else .completed code
  | some t, .hangs => .timedOut t

/-- Python `timeout if timeout > 0 else None`. -/
def effectiveTimeout (timeout : Int) : Option Int :=
  if timeout > 0 then some timeout else none

/-- The gemini intermediate JSON envelope's `response` field. -/
inductive RespField where
  | missing
  | null
  | str (s : String)
deriving DecidableEq, Repr

/-- What `json.load` yields for the envelope file: a JSON object (for which
only the `response` field matters) or some other valid JSON value, on which
`data.get(...)` raises `AttributeError`. -/
inductive JsonDoc where
  | obj (response : RespField)
  | nonObject
deriving DecidableEq, Repr

/-- Evaluation of `data.get("response", "") or ""`: the empty string when the field is
missing, `null`, or the empty string. -/
def respString : RespField → String
  | .missing => ""
  | .null => ""
  | .str s => if s = "" then "" else s

structure GeminiEnv where
  /-- the initial `with open(prompt),open(json_out,'w'),open(log,'w')` block
  opens without an `IOError`. -/
  inOpenOk : Bool
  proc : ProcBehavior
  /-- whether `open(json_out, 'r')` after a successful process run succeeds. -/
  jsonReadOk : Bool
  /-- result of `json.load` on the envelope; `none` = `JSONDecodeError`. -/
  doc : Option JsonDoc
  /-- whether `open(output_path, 'w')` succeeds. -/
  outOpenOk : Bool
  /-- stripped non-empty stderr log content available to the
  `CalledProcessError` handler, if any. -/
  logTail : Option String
deriving DecidableEq, Repr

/-- The `err_msg` built by the `CalledProcessError` handler. -/
def exitMarker (tool : String) (code : Int) (logTail : Option String) : String :=
  "[" ++ tool ++ "] ERROR: " ++
    ("Command failed with exit code " ++ toString code ++ "." ++
      match logTail with
      | some s => "\n--- STDERR ---\n" ++ s ++ "\n--------------"
      | none => "")

/-- The marker written by the `except (TimeoutExpired, ..., IOError)` handler:
`f"[{tool}] ERROR: {str(e)} (see {log_path})"`; `str(e)` is modelled by a
per-exception message. -/
def exnMarker (tool msg logPath : String) : String :=
  "[" ++ tool ++ "] ERROR: " ++ (msg ++ " (see " ++ logPath ++ ")")

def timeoutMsg (secs : Int) : String :=
  "Command timed out after " ++ toString secs ++ " seconds"

/-- The handlers write their marker with `open(output_path, 'w')`; when that
open itself fails, the `IOError` raised inside the handler escapes `run`. -/
def writeErrOut (outOpenOk : Bool) (marker : String) : RunResult :=
  if outOpenOk then .returns false marker else .raises .ioError

/-- Model of `GeminiRunner.run` (llm_ensemble.py lines 212-260). -/
def geminiRun (timeout : Int) (logPath : String) (env : GeminiEnv) : RunResult :=
  if !env.inOpenOk then
    writeErrOut env.outOpenOk (exnMarker "gemini" "I/O error" logPath)
  else
    match subprocessRun (effectiveTimeout timeout) env.proc with
    | .neverReturns => .hangs
    | .timedOut t => writeErrOut env.outOpenOk (exnMarker "gemini" (timeoutMsg t) logPath)
    | .completed code =>
      if code ≠ 0 then
        writeErrOut env.outOpenOk (exitMarker "gemini" code env.logTail)
      else if !env.jsonReadOk then
        writeErrOut env.outOpenOk (exnMarker "gemini" "I/O error" logPath)
      else
        match env.doc with
        | none => writeErrOut env.outOpenOk (exnMarker "gemini" "JSON decode error" logPath)
        | some .nonObject => .raises .attributeError
        | some (.obj resp) =>
          if env.outOpenOk then .returns true (respString resp)
          else writeErrOut env.outOpenOk (exnMarker "gemini" "I/O error" logPath)

structure CodexEnv where
  /-- whether `open(prompt_path)` and `open(log_path, 'w')` succeed. -/
  promptLogOpenOk : Bool
  /-- whether `open(output_path, 'w')` succeeds (the codex runner opens the output
  artifact inside the initial `with` block). -/
  outOpenOk : Bool
  proc : ProcBehavior
  /-- standard output of the process, streamed into the output artifact. -/
  procStdout : String
  logTail : Option String
deriving DecidableEq, Repr

/-- Model of `CodexRunner.run` (llm_ensemble.py lines 266-305). -/
def codexRun (timeout : Int) (logPath : String) (env : CodexEnv) : RunResult :=
  if !(env.promptLogOpenOk && env.outOpenOk) then
    writeErrOut env.outOpenOk (exnMarker "codex" "I/O error" logPath)
  else
    match subprocessRun (effectiveTimeout timeout) env.proc with
    | .neverReturns => .hangs
    | .timedOut t => writeErrOut env.outOpenOk (exnMarker "codex" (timeoutMsg t) logPath)
    | .completed code =>
      if code ≠ 0 then
        writeErrOut env.outOpenOk (exitMarker "codex" code env.logTail)
      else .returns true env.procStdout

/-! ## Context ingestion (`EnsembleApp.process_context_files`,
llm_ensemble.py lines 372-400)

Raw file bytes are modelled as `List Nat` (each `< 256`); Python's strict
`bytes.decode('utf-8')` is the standard UTF-8 decoder below (rejecting
overlong forms, surrogates, values above `U+10FFFF` and truncated
sequences), and `bytes.decode('latin-1')` maps each byte to the code point
of the same value. -/

def isCont (b : Nat) : Bool := 0x80 ≤ b && b ≤ 0xBF

/-- Strict UTF-8 decoding; `none` models `UnicodeDecodeError`. -/
def utf8Decode : List Nat → Option (List Char)
  | [] => some []
  | b :: rest =>
    if b < 0x80 then
      (utf8Decode rest).map (fun cs => Char.ofNat b :: cs)
    else if b < 0xC2 then none
    else if b ≤ 0xDF then
      match rest with
      | b2 :: rest2 =>
        if isCont b2 then
          (utf8Decode rest2).map (fun cs => Char.ofNat ((b - 0xC0) * 0x40 + (b2 - 0x80)) :: cs)
        else none
      | [] => none
    else if b ≤ 0xEF then
      match rest with
      | b2 :: b3 :: rest3 =>
        let okB2 :=
          if b = 0xE0 then 0xA0 ≤ b2 && b2 ≤ 0xBF
          else if b = 0xED then 0x80 ≤ b2 && b2 ≤ 0x9F
          else isCont b2
        if okB2 && isCont b3 then
          (utf8Decode rest3).map (fun cs =>
            Char.ofNat ((b - 0xE0) * 0x1000 + (b2 - 0x80) * 0x40 + (b3 - 0x80)) :: cs)
        else none
      | _ => none
    else if b ≤ 0xF4 then
      match rest with
      | b2 :: b3 :: b4 :: rest4 =>
        let okB2 :=
          if b = 0xF0 then 0x90 ≤ b2 && b2 ≤ 0xBF
          else if b = 0xF4 then 0x80 ≤ b2 && b2 ≤ 0x8F
          else isCont b2
        if okB2 && isCont b3 && isCont b4 then
          (utf8Decode rest4).map (fun cs =>
            Char.ofNat
              ((b - 0xF0) * 0x40000 + (b2 - 0x80) * 0x1000 + (b3 - 0x80) * 0x40 + (b4 - 0x80))
              :: cs)
        else none
      | _ => none
    else none

/-- Python `bytes.decode('latin-1', errors='replace')` — latin-1 decodes every byte,
to the character of the same code point. -/
def latin1Decode (bs : List Nat) : String := ⟨bs.map Char.ofNat⟩

/-- A context file handed to `process_context_files`: its name, its
(lower-cased by `Path.suffix` handling in the model) extension including the
dot, its raw bytes, and whether it exists on disk. -/
structure CtxFile where
  name : String
  suffix : String
  bytes : List Nat
  exists_ : Bool
deriving DecidableEq, Repr

/-- The per-file banner: `f"[Context File: {name}]\n<<<\n{text}\n>>>\n"`. -/
def ctxBanner (name text : String) : String :=
  "[Context File: " ++ name ++ "]\n<<<\n" ++ text ++ "\n>>>\n"

/-- One iteration of the `process_context_files` loop, producing the
extracted text plus a flag recording the fallback-encoding warning.
`pdfX` / `docxX` model the external pdftotext / docx extraction helpers
(out-of-scope collaborators, already reduced to the text they return). -/
def processOneCtxFile (pdfX docxX : CtxFile → String) (f : CtxFile) :
    Except String (String × Bool) :=
  if !f.exists_ then .error ("Context file not found: " ++ f.name)
  else if pyLower f.suffix.data = ".pdf".data then .ok (pdfX f, false)
  else if pyLower f.suffix.data = ".docx".data then .ok (docxX f, false)
  else if f.bytes.contains 0 then
    .error ("Context file appears to be binary: " ++ f.name)
  else
    match utf8Decode f.bytes with
    | some cs => .ok (⟨cs⟩, false)
    | none => .ok (latin1Decode f.bytes, true)

/-- Model of `process_context_files`: formats every file's text with its banner and
concatenates in input order; a `die` aborts the whole run. -/
def processContextFiles (pdfX docxX : CtxFile → String) :
    List CtxFile → Except String String
  | [] => .ok ""
  | f :: rest =>
    match processOneCtxFile pdfX docxX f with
    | .error msg => .error msg
    | .ok (text, _) =>
      match processContextFiles pdfX docxX rest with
      | .error msg => .error msg
      | .ok restBlock => .ok (ctxBanner f.name text ++ restBlock)

/-! ## Merge-model resolution (`validate_and_setup` step 4 and `parse_args`,
llm_ensemble.py lines 522-528 and 765-767) -/

/-- Python truthiness of an optional string (`None` and `""` are falsy). -/
def pyTruthy : Option String → Bool
  | none => false
  | some s => !(s = "")

/-- Python `"gemini" in s` — substring containment. -/
def hasSubstr (pat : List Char) : List Char → Bool
  | [] => pat.isEmpty
  | c :: rest => pat.isPrefixOf (c :: rest) || hasSubstr pat rest

/-- From `parse_args`: the merge provider is codex unless a merge-model override
was supplied whose lower-cased name contains `"gemini"`. -/
def mergeProviderOf (override : Option String) : Provider :=
  match override with
  | some m => if !(m = "") && hasSubstr "gemini".data (pyLower m.data) then .gemini else .codex
  | none => .codex

/-- Step 4 of `validate_and_setup`: explicit override, else the first codex
model found during model parsing, else the configured default codex model. -/
def resolveMergeModel (override found : Option String) (codexDefault : String) : String :=
  if pyTruthy override then override.getD ""
  else if pyTruthy found then found.getD ""
  else codexDefault

/-! ## Dependency checks (`validate_and_setup` step 5,
llm_ensemble.py lines 530-535) -/

def checkDependencies (rs : List Runner) (geminiOnPath codexOnPath : Bool) :
    Except String Unit :=
  if (rs.any fun r => r.provider = .gemini) && !geminiOnPath then
    .error "gemini command not found on PATH."
  else if !codexOnPath then
    .error "codex command not found on PATH. (Needed at least for the final merge.)"
  else .ok ()

/-- Ordering of `main`: `validate_and_setup` (which ends with the dependency
check) runs to completion before `execute_parallel` starts any fan-out
work; a `die` in the former yields no task results at all. -/
def runFanOut (rs : List Runner) (geminiOnPath codexOnPath : Bool)
    (completionOrder : List Task) (raised : Task → Bool) :
    Except String (List String) :=
  match checkDependencies rs geminiOnPath codexOnPath with
  | .error msg => .error msg
  | .ok _ => .ok (executeParallel completionOrder raised)

/-! ## Merge aggregator (`EnsembleApp.merge`, llm_ensemble.py lines 578-660) -/

/-- The built-in `default_instruction` literal. -/
def defaultMergeInstruction : String :=
  "You are given:\n1) The user's original prompt.\n2) Multiple candidate answers generated by different models and/or runs.\n\nTask:\n- Produce a single best final answer to the user's original prompt.\n- Combine the strongest parts of the candidates, fix mistakes, resolve contradictions.\n- If something is uncertain, say so plainly.\n- Do NOT mention the candidates, tools, or your merging process.\n- Output ONLY the final answer.\n\nUSER PROMPT:\n<<<\n"

/-- Merge-instruction resolution: a merge-prompt file wins (its absence is a
`die`), then literal merge-prompt text, then the built-in default.  The file
override is `(exists, content)`. -/
def resolveInstruction (promptFile : Option (Bool × String)) (promptText : Option String) :
    Except String String :=
  match promptFile with
  | some (ex, content) =>
    if ex then .ok content else .error "Merge prompt file not found"
  | none => .ok (if pyTruthy promptText then promptText.getD "" else defaultMergeInstruction)

/-- One candidate answer file as the merge step sees it: artifact file name
and its content (`none` when the file vanished: `"[File missing]"`). -/
abbrev CandidateFile := String × Option String

/-- The three `f.write` calls of the candidate loop, one candidate. -/
def candidateChunks (c : CandidateFile) : List String :=
  ["\n--- " ++ c.1 ++ " ---\n<<<\n", c.2.getD "[File missing]", "\n>>>\n"]

/-- The exact sequence of `f.write` calls that builds `merge_prompt.txt`,
in program order. -/
def mergeWriteChunks (instruction mergeCtxBlock canonPrompt : String)
    (results : List CandidateFile) : List String :=
  [instruction]
    ++ (if mergeCtxBlock = "" then [] else ["\n\nMERGE CONTEXT:\n", mergeCtxBlock])
    ++ ["\n\nORIGINAL PROMPT & CONTEXT:\n", canonPrompt, "\n>>>\n\nCANDIDATE ANSWERS:\n"]
    ++ results.flatMap candidateChunks
    ++ ["\n\nFINAL ANSWER (output only this):\n"]

/-- Content of the `merge_prompt.txt` artifact: the sequential writes,
concatenated. -/
def mergePromptContent (instruction mergeCtxBlock canonPrompt : String)
    (results : List CandidateFile) : String :=
  String.join (mergeWriteChunks instruction mergeCtxBlock canonPrompt results)

/-- The merge prompt as the specification words it: one concatenation, in
fixed order — instruction; the merge context block if non-empty; the original
canonical prompt verbatim; every candidate wrapped in a delimiter banner
naming its artifact file, in the given (sorted) order; a closing marker. -/
def specMergePrompt (instruction mergeCtxBlock canonPrompt : String)
    (results : List CandidateFile) : String :=
  instruction
    ++ (if mergeCtxBlock = "" then "" else "\n\nMERGE CONTEXT:\n" ++ mergeCtxBlock)
    ++ "\n\nORIGINAL PROMPT & CONTEXT:\n" ++ canonPrompt
    ++ "\n>>>\n\nCANDIDATE ANSWERS:\n"
    ++ String.join (results.map fun c =>
        "\n--- " ++ c.1 ++ " ---\n<<<\n" ++ c.2.getD "[File missing]" ++ "\n>>>\n")
    ++ "\n\nFINAL ANSWER (output only this):\n"

/-- Observable steps of the merge stage, in program order. -/
inductive MergeStep where
  /-- writing `merge_prompt.txt`. -/
  | writePromptArtifact (content : String)
  /-- rendering an HTML report (pre- or post-merge). -/
  | writeReport (path : String)
  /-- one Provider Invoker call. -/
  | invoke (provider : Provider) (model : String)
  /-- converting the final answer to rtf/docx. -/
  | writeFormatted (path : String)
deriving DecidableEq, Repr

def isInvoke : MergeStep → Bool
  | .invoke _ _ => true
  | _ => false

/-- Model of `EnsembleApp.merge`, reduced to its observable step sequence: write the
composite prompt artifact, optionally render the pre-report, make the single
backend call (gemini or codex branch, both one `run`), optionally convert the
final answer, optionally render the post-report. -/
def mergeEvents (instruction mergeCtxBlock canonPrompt : String)
    (results : List CandidateFile) (preReport postReport : Bool)
    (provider : Provider) (model : String)
    (success : Bool) (outputFormat : String) : List MergeStep :=
  [.writePromptArtifact (mergePromptContent instruction mergeCtxBlock canonPrompt results)]
    ++ (if preReport then [.writeReport "pre_report.html"] else [])
    ++ [.invoke provider model]
    ++ (if success && outputFormat = "rtf" then [.writeFormatted "final.rtf"]
        else if success && outputFormat = "docx" then [.writeFormatted "final.docx"]
        else [])
    ++ (if postReport then [.writeReport "post_report.html"] else [])

/-! # Theorems -/

/-! ## Helper lemmas -/

theorem sanitizeChar_allowed (c : Char) : isAllowedChar (sanitizeChar c) = true := by
  unfold sanitizeChar
  by_cases h : isAllowedChar c = true
  · simp [h]
  · simp [h]; decide

theorem sanitizeChar_idem (c : Char) : sanitizeChar (sanitizeChar c) = sanitizeChar c := by
  have h := sanitizeChar_allowed c
  unfold sanitizeChar at *
  simp [h]

theorem sanitizeChar_id_of_allowed {c : Char} (h : isAllowedChar c = true) :
    sanitizeChar c = c := by
  simp [sanitizeChar, h]

theorem lexLe_total (a b : List Char) : lexLe a b = true ∨ lexLe b a = true := by
  induction a generalizing b with
  | nil => left; rfl
  | cons x xs ih =>
    cases b with
    | nil => right; rfl
    | cons y ys =>
      by_cases hxy : x.toNat < y.toNat
      · left; simp [lexLe, hxy]
      · by_cases hyx : y.toNat < x.toNat
        · right; simp [lexLe, hyx]
        · rcases ih ys with h | h
          · left; simp [lexLe, hxy, hyx, h]
          · right; simp [lexLe, hxy, hyx, h]

theorem lexLe_antisymm {a b : List Char} (h₁ : lexLe a b = true) (h₂ : lexLe b a = true) :
    a = b := by
  induction a generalizing b with
  | nil =>
    cases b with
    | nil => rfl
    | cons y ys => simp [lexLe] at h₂
  | cons x xs ih =>
    cases b with
    | nil => simp [lexLe] at h₁
    | cons y ys =>
      by_cases hxy : x.toNat < y.toNat
      · simp [lexLe, hxy, Nat.lt_asymm hxy] at h₂
      · by_cases hyx : y.toNat < x.toNat
        · simp [lexLe, hxy, hyx] at h₁
        · have hval : x.toNat = y.toNat := by omega
          have hx : x = y := by
            apply Char.ext
            apply UInt32.ext
            exact hval
          subst hx
          simp [lexLe, hxy, hyx] at h₁ h₂
          rw [ih h₁ h₂]

theorem lexLe_trans {a b c : List Char} (h₁ : lexLe a b = true) (h₂ : lexLe b c = true) :
    lexLe a c = true := by
  induction a generalizing b c with
  | nil => rfl
  | cons x xs ih =>
    cases b with
    | nil => simp [lexLe] at h₁
    | cons y ys =>
      cases c with
      | nil => simp [lexLe] at h₂
      | cons z zs =>
        by_cases hxy : x.toNat < y.toNat <;> by_cases hyz : y.toNat < z.toNat
        · simp [lexLe]; omega
        · by_cases hzy : z.toNat < y.toNat
          · simp [lexLe, hyz, hzy] at h₂
          · have : y.toNat = z.toNat := by omega
            simp [lexLe]; omega
        · by_cases hyx : y.toNat < x.toNat
          · simp [lexLe, hxy, hyx] at h₁
          · have : x.toNat = y.toNat := by omega
            simp [lexLe]; omega
        · by_cases hyx : y.toNat < x.toNat
          · simp [lexLe, hxy, hyx] at h₁
          · by_cases hzy : z.toNat < y.toNat
            · simp [lexLe, hyz, hzy] at h₂
            · have hxy' : x.toNat = y.toNat := by omega
              have hyz' : y.toNat = z.toNat := by omega
              simp [lexLe, hxy, hyx] at h₁
              simp [lexLe, hyz, hzy] at h₂
              have hxz₁ : ¬ x.toNat < z.toNat := by omega
              have hxz₂ : ¬ z.toNat < x.toNat := by omega
              simp [lexLe, hxz₁, hxz₂]
              exact ih h₁ h₂

instance : IsTotal String strLe :=
  ⟨fun a b => lexLe_total a.data b.data⟩

instance : IsTrans String strLe :=
  ⟨fun _ _ _ h₁ h₂ => lexLe_trans h₁ h₂⟩

instance : IsAntisymm String strLe :=
  ⟨fun _ _ h₁ h₂ => String.ext (lexLe_antisymm h₁ h₂)⟩

/-! ## C5 — `sanitize_label` -/

/-- C5: `sanitize_label` maps every string into the alphabet `[A-Za-z0-9._-]`
(each disallowed character becoming `_`), is idempotent, is the identity on
strings already over that alphabet, and in particular fixes `"gpt-4.0"` and
maps `"Gemini Pro @ 1.5"` to `"Gemini_Pro___1.5"`. -/
theorem claim_C5_sanitize_label :
    (∀ s : String, ∀ c ∈ (sanitize_label s).data, isAllowedChar c = true)
    ∧ (∀ s : String, sanitize_label (sanitize_label s) = sanitize_label s)
    ∧ (∀ s : String, (∀ c ∈ s.data, isAllowedChar c = true) → sanitize_label s = s)
    ∧ sanitize_label "gpt-4.0" = "gpt-4.0"
    ∧ sanitize_label "Gemini Pro @ 1.5" = "Gemini_Pro___1.5" := by
  refine ⟨?_, ?_, ?_, by decide, by decide⟩
  · intro s c hc
    have : (sanitize_label s).data = s.data.map sanitizeChar := rfl
    rw [this] at hc
    obtain ⟨a, _, ha⟩ := List.mem_map.mp hc
    rw [← ha]
    exact sanitizeChar_allowed a
  · intro s
    apply String.ext
    show (String.mk (s.data.map sanitizeChar)).data.map sanitizeChar = s.data.map sanitizeChar
    rw [List.map_map]
    exact List.map_congr_left fun a _ => sanitizeChar_idem a
  · intro s hall
    apply String.ext
    show s.data.map sanitizeChar = s.data
    conv_rhs => rw [← List.map_id s.data]
    exact List.map_congr_left fun a ha => sanitizeChar_id_of_allowed (hall a ha)

/-- Witness for C5: the identity conjunct applied at the concrete allowed
string `"gpt-4.0"`. -/
theorem claim_C5_witness : sanitize_label "gpt-4.0" = "gpt-4.0" :=
  claim_C5_sanitize_label.2.2.1 "gpt-4.0" (by decide)

/-! ## C9 — dependency checks -/

/-- C9: the codex executable is required even when all fan-out pairs use
gemini (a gemini-only run aborts during setup — hence before any fan-out
work — when codex is absent from PATH), whereas the gemini executable is only
consulted when some fan-out pair uses gemini. -/
theorem claim_C9_codex_always_required (rs : List Runner)
    (geminiOnPath : Bool)
    (_hg : ∀ r ∈ rs, r.provider = .gemini) :
    (∃ msg, runFanOut rs geminiOnPath false [] (fun _ => false) = .error msg)
    ∧ (geminiOnPath = true →
        checkDependencies rs geminiOnPath false
          = .error "codex command not found on PATH. (Needed at least for the final merge.)")
    ∧ (∀ rs' : List Runner, (∀ r ∈ rs', r.provider ≠ .gemini) →
        ∀ g₁ g₂ c : Bool, checkDependencies rs' g₁ c = checkDependencies rs' g₂ c) := by
  refine ⟨?_, ?_, ?_⟩
  · unfold runFanOut checkDependencies
    by_cases hany : (rs.any fun r => r.provider = .gemini) && !geminiOnPath
    · exact ⟨"gemini command not found on PATH.", by simp [hany]⟩
    · exact ⟨"codex command not found on PATH. (Needed at least for the final merge.)",
        by simp [hany]⟩
  · intro hgp
    subst hgp
    unfold checkDependencies
    simp
  · intro rs' hng g₁ g₂ c
    unfold checkDependencies
    have : (rs'.any fun r => r.provider = .gemini) = false := by
      rw [List.any_eq_false]
      intro r hr
      simp [hng r hr]
    simp [this]

/-- Witness for C9: a gemini-only runner list with codex missing makes setup
fail before fan-out. -/
theorem claim_C9_witness :
    (∃ msg, runFanOut [⟨.gemini, "m", "gemini__m"⟩] true false [] (fun _ => false) = .error msg)
    ∧ (true = true →
        checkDependencies [⟨.gemini, "m", "gemini__m"⟩] true false
          = .error "codex command not found on PATH. (Needed at least for the final merge.)")
    ∧ (∀ rs' : List Runner, (∀ r ∈ rs', r.provider ≠ .gemini) →
        ∀ g₁ g₂ c : Bool, checkDependencies rs' g₁ c = checkDependencies rs' g₂ c) :=
  claim_C9_codex_always_required [⟨.gemini, "m", "gemini__m"⟩] true
    (by intro r hr; simp at hr; rw [hr])

/-! ## C10 — gemini envelope without a `response` field -/

/-- C10 as stated is false on the code: the claim quantifies over every
envelope that "parses as valid JSON but contains no response field", but for
a valid JSON value that is not an object (e.g. a JSON array, which has no
`response` field), `data.get("response", "")` raises `AttributeError`, which
is caught by none of the handlers and escapes `run` — the invoker neither
writes `""` nor returns `True` there. -/
theorem claim_C10_counterexample :
    geminiRun 300 "run.log" ⟨true, .terminates 1 0, true, some .nonObject, true, none⟩
      = .raises .attributeError
    ∧ geminiRun 300 "run.log" ⟨true, .terminates 1 0, true, some .nonObject, true, none⟩
      ≠ .returns true "" := by
  constructor
  · decide
  · decide

/-- C10 (amended): when the successfully-parsed envelope is a JSON *object*
whose `response` field is missing, `null` or empty, the invoker writes the
empty string to the output artifact and returns `True`; such an envelope is
not treated as a decoding failure. -/
theorem claim_C10_empty_response (timeout : Int) (logPath : String) (env : GeminiEnv)
    (hin : env.inOpenOk = true)
    (hproc : subprocessRun (effectiveTimeout timeout) env.proc = .completed 0)
    (hjson : env.jsonReadOk = true)
    (hout : env.outOpenOk = true)
    (hresp : env.doc = some (.obj .missing) ∨ env.doc = some (.obj .null)
      ∨ env.doc = some (.obj (.str ""))) :
    geminiRun timeout logPath env = .returns true "" := by
  unfold geminiRun
  rcases hresp with h | h | h <;>
    simp [hin, hproc, hjson, hout, h, respString]

/-- Witness for C10 (amended): a concrete run whose envelope is `{}`. -/
theorem claim_C10_witness :
    geminiRun 300 "run.log" ⟨true, .terminates 1 0, true, some (.obj .missing), true, none⟩
      = .returns true "" :=
  claim_C10_empty_response 300 "run.log"
    ⟨true, .terminates 1 0, true, some (.obj .missing), true, none⟩
    rfl (by decide) rfl rfl (Or.inl rfl)

/-! ## C2 — uniform failure contract of the invokers -/

/-- C2 as stated is false on the code: when the output artifact itself cannot
be opened for writing, the failure handlers — which re-open the output path to
write the error marker — raise a second `IOError` that escapes `run`.  Here a
nonzero-exit invocation with an unwritable output artifact raises instead of
returning `False`. -/
theorem claim_C2_counterexample :
    geminiRun 300 "run.log"
      ⟨true, .terminates 1 2, true, some (.obj (.str "x")), false, none⟩
      = .raises .ioError
    ∧ ∀ s, geminiRun 300 "run.log"
      ⟨true, .terminates 1 2, true, some (.obj (.str "x")), false, none⟩
      ≠ .returns false s := by
  constructor
  · decide
  · intro s
    have h : geminiRun 300 "run.log"
        ⟨true, .terminates 1 2, true, some (.obj (.str "x")), false, none⟩
        = .raises .ioError := by decide
    rw [h]
    intro hc
    cases hc

/-- C2 (amended): provided the output artifact itself can be opened for
writing, every invocation whose process exits nonzero, times out, fails JSON
envelope decoding (gemini), or fails opening the prompt/log/envelope
artifacts returns the boolean `False` without raising, and the output
artifact then holds the corresponding descriptive error-marker string (always
of the shape `[gemini] ERROR: ...` / `[codex] ERROR: ...`), so the output
text always exists. -/
theorem claim_C2_uniform_failure (timeout : Int) (logPath : String)
    (envG : GeminiEnv) (envC : CodexEnv)
    (houtG : envG.outOpenOk = true) (houtC : envC.outOpenOk = true) :
    (envG.inOpenOk = false →
      geminiRun timeout logPath envG
        = .returns false (exnMarker "gemini" "I/O error" logPath))
    ∧ (∀ t, envG.inOpenOk = true →
        subprocessRun (effectiveTimeout timeout) envG.proc = .timedOut t →
        geminiRun timeout logPath envG
          = .returns false (exnMarker "gemini" (timeoutMsg t) logPath))
    ∧ (∀ c, envG.inOpenOk = true →
        subprocessRun (effectiveTimeout timeout) envG.proc = .completed c → c ≠ 0 →
        geminiRun timeout logPath envG
          = .returns false (exitMarker "gemini" c envG.logTail))
    ∧ (envG.inOpenOk = true →
        subprocessRun (effectiveTimeout timeout) envG.proc = .completed 0 →
        envG.jsonReadOk = false →
        geminiRun timeout logPath envG
          = .returns false (exnMarker "gemini" "I/O error" logPath))
    ∧ (envG.inOpenOk = true →
        subprocessRun (effectiveTimeout timeout) envG.proc = .completed 0 →
        envG.jsonReadOk = true → envG.doc = none →
        geminiRun timeout logPath envG
          = .returns false (exnMarker "gemini" "JSON decode error" logPath))
    ∧ (envC.promptLogOpenOk = false →
        codexRun timeout logPath envC
          = .returns false (exnMarker "codex" "I/O error" logPath))
    ∧ (∀ t, envC.promptLogOpenOk = true →
        subprocessRun (effectiveTimeout timeout) envC.proc = .timedOut t →
        codexRun timeout logPath envC
          = .returns false (exnMarker "codex" (timeoutMsg t) logPath))
    ∧ (∀ c, envC.promptLogOpenOk = true →
        subprocessRun (effectiveTimeout timeout) envC.proc = .completed c → c ≠ 0 →
        codexRun timeout logPath envC
          = .returns false (exitMarker "codex" c envC.logTail))
    ∧ (∀ tool msg lp, ∃ r, exnMarker tool msg lp = "[" ++ tool ++ "] ERROR: " ++ r)
    ∧ (∀ tool code lt, ∃ r, exitMarker tool code lt = "[" ++ tool ++ "] ERROR: " ++ r) := by
  refine ⟨?_, ?_, ?_, ?_, ?_, ?_, ?_, ?_, ?_, ?_⟩
  · intro hin
    unfold geminiRun; simp [hin, houtG, writeErrOut]
  · intro t hin hto
    unfold geminiRun; simp [hin, hto, houtG, writeErrOut]
  · intro c hin hc hc0
    unfold geminiRun; simp [hin, hc, hc0, houtG, writeErrOut]
  · intro hin hc hj
    unfold geminiRun; simp [hin, hc, hj, houtG, writeErrOut]
  · intro hin hc hj hd
    unfold geminiRun; simp [hin, hc, hj, hd, houtG, writeErrOut]
  · intro hpl
    unfold codexRun; simp [hpl, houtC, writeErrOut]
  · intro t hpl hto
    unfold codexRun; simp [hpl, hto, houtC, writeErrOut]
  · intro c hpl hc hc0
    unfold codexRun; simp [hpl, hc, hc0, houtC, writeErrOut]
  · intro tool msg lp
    exact ⟨msg ++ " (see " ++ lp ++ ")", rfl⟩
  · intro tool code lt
    refine ⟨"Command failed with exit code " ++ toString code ++ "." ++
      (match lt with
       | some s => "\n--- STDERR ---\n" ++ s ++ "\n--------------"
       | none => ""), rfl⟩

/-- Witness for C2 (amended): a gemini invocation whose process exits with
code 2 returns `False` with the exit-code error marker in the output
artifact. -/
theorem claim_C2_witness :
    geminiRun 300 "run.log"
      ⟨true, .terminates 1 2, true, some (.obj (.str "x")), true, none⟩
      = .returns false (exitMarker "gemini" 2 none) :=
  ((claim_C2_uniform_failure 300 "run.log"
      ⟨true, .terminates 1 2, true, some (.obj (.str "x")), true, none⟩
      ⟨true, true, .terminates 1 0, "", none⟩ rfl rfl).2.2.1)
    2 rfl (by decide) (by decide)

/-! ## C8 — timeout semantics -/

theorem writeErrOut_ne_hangs {b : Bool} {m : String} : writeErrOut b m ≠ .hangs := by
  unfold writeErrOut
  split <;> simp

theorem subprocessRun_some_ne_never (t : Int) (proc : ProcBehavior) :
    subprocessRun (some t) proc ≠ .neverReturns := by
  cases proc with
  | terminates d c =>
    show (if (d : Int) > t then SubprocResult.timedOut t else .completed c) ≠ .neverReturns
    split <;> simp
  | hangs => simp [subprocessRun]

theorem geminiRun_ne_hangs (t : Int) (lp : String) (env : GeminiEnv)
    (hsub : subprocessRun (effectiveTimeout t) env.proc ≠ .neverReturns) :
    geminiRun t lp env ≠ .hangs := by
  unfold geminiRun
  split
  · exact writeErrOut_ne_hangs
  · split
    · next h => exact absurd h hsub
    · exact writeErrOut_ne_hangs
    · split
      · exact writeErrOut_ne_hangs
      · split
        · exact writeErrOut_ne_hangs
        · split
          · exact writeErrOut_ne_hangs
          · simp
          · split
            · simp
            · exact writeErrOut_ne_hangs

theorem codexRun_ne_hangs (t : Int) (lp : String) (env : CodexEnv)
    (hsub : subprocessRun (effectiveTimeout t) env.proc ≠ .neverReturns) :
    codexRun t lp env ≠ .hangs := by
  unfold codexRun
  split
  · exact writeErrOut_ne_hangs
  · split
    · next h => exact absurd h hsub
    · exact writeErrOut_ne_hangs
    · split
      · exact writeErrOut_ne_hangs
      · simp

/-- C8 as stated is false on the code for the same reason as C2: if the
output artifact cannot be opened, an expired timeout ends in an escaping
`IOError` instead of a `False` result with a timeout marker. -/
theorem claim_C8_counterexample :
    geminiRun 5 "run.log"
      ⟨true, .terminates 100 0, true, some (.obj (.str "hi")), false, none⟩
      = .raises .ioError
    ∧ ∀ s, geminiRun 5 "run.log"
      ⟨true, .terminates 100 0, true, some (.obj (.str "hi")), false, none⟩
      ≠ .returns false s := by
  constructor
  · decide
  · intro s
    have h : geminiRun 5 "run.log"
        ⟨true, .terminates 100 0, true, some (.obj (.str "hi")), false, none⟩
        = .raises .ioError := by decide
    rw [h]
    intro hc
    cases hc

/-- C8 (amended): a timeout of 0 disables the timeout entirely — the external
call blocks for as long as the process runs (forever, if it hangs) and never
raises `TimeoutExpired`; a positive timeout that expires (the process outlives
it, or hangs) terminates the process and — provided the output artifact is
writable — resolves the task as a failure: `False` is returned and a timeout
marker is written; with a positive timeout the call never hangs. -/
theorem claim_C8_timeout (logPath : String) (envG : GeminiEnv) (envC : CodexEnv) :
    effectiveTimeout 0 = none
    ∧ (∀ proc t, subprocessRun (effectiveTimeout 0) proc ≠ .timedOut t)
    ∧ (envG.inOpenOk = true → envG.proc = .hangs → geminiRun 0 logPath envG = .hangs)
    ∧ (envC.promptLogOpenOk = true → envC.outOpenOk = true → envC.proc = .hangs →
        codexRun 0 logPath envC = .hangs)
    ∧ (∀ timeout : Int, 0 < timeout → envG.inOpenOk = true → envG.outOpenOk = true →
        (envG.proc = .hangs ∨ ∃ d c, envG.proc = .terminates d c ∧ (d : Int) > timeout) →
        geminiRun timeout logPath envG
          = .returns false (exnMarker "gemini" (timeoutMsg timeout) logPath))
    ∧ (∀ timeout : Int, 0 < timeout → envC.promptLogOpenOk = true → envC.outOpenOk = true →
        (envC.proc = .hangs ∨ ∃ d c, envC.proc = .terminates d c ∧ (d : Int) > timeout) →
        codexRun timeout logPath envC
          = .returns false (exnMarker "codex" (timeoutMsg timeout) logPath))
    ∧ (∀ timeout : Int, 0 < timeout →
        geminiRun timeout logPath envG ≠ .hangs ∧ codexRun timeout logPath envC ≠ .hangs) := by
  refine ⟨rfl, ?_, ?_, ?_, ?_, ?_, ?_⟩
  · intro proc t
    cases proc <;> simp [effectiveTimeout, subprocessRun]
  · intro hin hproc
    unfold geminiRun
    simp [hin, hproc, effectiveTimeout, subprocessRun]
  · intro hpl hout hproc
    unfold codexRun
    simp [hpl, hout, hproc, effectiveTimeout, subprocessRun]
  · intro timeout ht hin hout hexp
    have hto : subprocessRun (effectiveTimeout timeout) envG.proc = .timedOut timeout := by
      rcases hexp with h | ⟨d, c, h, hd⟩ <;>
        simp [h, effectiveTimeout, ht, subprocessRun]
      omega
    unfold geminiRun
    simp [hin, hto, hout, writeErrOut]
  · intro timeout ht hpl hout hexp
    have hto : subprocessRun (effectiveTimeout timeout) envC.proc = .timedOut timeout := by
      rcases hexp with h | ⟨d, c, h, hd⟩ <;>
        simp [h, effectiveTimeout, ht, subprocessRun]
      omega
    unfold codexRun
    simp [hpl, hout, hto, writeErrOut]
  · intro timeout ht
    have he : effectiveTimeout timeout = some timeout := by
      unfold effectiveTimeout; simp [ht]
    constructor
    · exact geminiRun_ne_hangs timeout logPath envG
        (by rw [he]; exact subprocessRun_some_ne_never timeout envG.proc)
    · exact codexRun_ne_hangs timeout logPath envC
        (by rw [he]; exact subprocessRun_some_ne_never timeout envC.proc)

/-- Witness for C8 (amended): timeout 7 expiring on a process that needs 100
seconds resolves the codex task as a marked failure. -/
theorem claim_C8_witness :
    codexRun 7 "run.log" ⟨true, true, .terminates 100 0, "out", none⟩
      = .returns false (exnMarker "codex" (timeoutMsg 7) "run.log") :=
  (claim_C8_timeout "run.log"
      ⟨true, .terminates 1 0, true, some (.obj .missing), true, none⟩
      ⟨true, true, .terminates 100 0, "out", none⟩).2.2.2.2.2.1
    7 (by decide) rfl rfl (Or.inr ⟨100, 0, rfl, by decide⟩)

/-! ## C1 — deterministic, completion-order-independent result ordering -/

/-- C1: whatever order the fan-out tasks complete in (any permutation of the
expanded task list; per-task outcomes fixed), `execute_parallel` returns the
same list of artifact names, and that list is sorted by file name. -/
theorem claim_C1_order_independent (rs : List Runner) (n : Nat) (raised : Task → Bool)
    (o₁ o₂ : List Task)
    (h₁ : o₁.Perm (expandTasks rs n)) (h₂ : o₂.Perm (expandTasks rs n)) :
    executeParallel o₁ raised = executeParallel o₂ raised
    ∧ List.Sorted strLe (executeParallel o₁ raised) := by
  constructor
  · apply List.eq_of_perm_of_sorted (r := strLe)
    · exact (List.perm_insertionSort strLe _).trans
        ((((h₁.trans h₂.symm).filter _).map taskOutName).trans
          (List.perm_insertionSort strLe _).symm)
    · exact List.sorted_insertionSort strLe _
    · exact List.sorted_insertionSort strLe _
  · exact List.sorted_insertionSort strLe _

/-- Witness for C1: three tasks completing in two different orders yield the
identical sorted artifact list. -/
theorem claim_C1_witness :
    executeParallel
        [⟨.gemini, "gm", "gemini__gm", 1⟩, ⟨.gemini, "gm", "gemini__gm", 2⟩,
         ⟨.codex, "cm", "codex__cm", 1⟩, ⟨.codex, "cm", "codex__cm", 2⟩] (fun _ => false)
      = executeParallel
        [⟨.codex, "cm", "codex__cm", 2⟩, ⟨.codex, "cm", "codex__cm", 1⟩,
         ⟨.gemini, "gm", "gemini__gm", 2⟩, ⟨.gemini, "gm", "gemini__gm", 1⟩] (fun _ => false)
    ∧ List.Sorted strLe (executeParallel
        [⟨.gemini, "gm", "gemini__gm", 1⟩, ⟨.gemini, "gm", "gemini__gm", 2⟩,
         ⟨.codex, "cm", "codex__cm", 1⟩, ⟨.codex, "cm", "codex__cm", 2⟩] (fun _ => false)) :=
  claim_C1_order_independent
    [⟨.gemini, "gm", "gemini__gm"⟩, ⟨.codex, "cm", "codex__cm"⟩] 2
    (fun _ => false)
    [⟨.gemini, "gm", "gemini__gm", 1⟩, ⟨.gemini, "gm", "gemini__gm", 2⟩,
     ⟨.codex, "cm", "codex__cm", 1⟩, ⟨.codex, "cm", "codex__cm", 2⟩]
    [⟨.codex, "cm", "codex__cm", 2⟩, ⟨.codex, "cm", "codex__cm", 1⟩,
     ⟨.gemini, "gm", "gemini__gm", 2⟩, ⟨.gemini, "gm", "gemini__gm", 1⟩]
    (by decide) (by decide)

/-! ## C3 — task expansion: count and key uniqueness -/

/-- C3 as stated is false on the code: `validate_and_setup` accepts two
distinct `(provider, model)` pairs whose models sanitise to the same label
(`sanitize_label` is not injective), and expansion then yields tasks with
duplicate `(label, iteration_index)` keys.  Concretely,
`--models "codex:a@b,codex:a_b"` parses to two runners that both carry label
`codex__a_b`, so with one iteration both tasks have key `("codex__a_b", 1)`. -/
theorem claim_C3_counterexample :
    parseModels "codex:a@b,codex:a_b" "gemini-3-pro-preview" "gpt-5.2-codex"
      = .ok ([⟨.codex, "a@b", "codex__a_b"⟩, ⟨.codex, "a_b", "codex__a_b"⟩], some "a@b")
    ∧ ((expandTasks [⟨.codex, "a@b", "codex__a_b"⟩, ⟨.codex, "a_b", "codex__a_b"⟩] 1).map
        taskKey)
      = [("codex__a_b", 1), ("codex__a_b", 1)]
    ∧ ¬ ((expandTasks [⟨.codex, "a@b", "codex__a_b"⟩, ⟨.codex, "a_b", "codex__a_b"⟩] 1).map
        taskKey).Nodup := by
  exact ⟨by decide, by decide, by decide⟩

/-- C3 (amended): for a non-empty runner list and `N ≥ 1`, expansion produces
exactly `#runners × N` tasks; and **provided the runners' derived labels are
pairwise distinct** every task's `(label, iteration_index)` key is unique
within the run. -/
theorem claim_C3_expansion (rs : List Runner) (n : Nat)
    (_hne : rs ≠ []) (_hn : 1 ≤ n)
    (hlab : (rs.map Runner.label).Nodup) :
    (expandTasks rs n).length = rs.length * n
    ∧ ((expandTasks rs n).map taskKey).Nodup := by
  constructor
  · unfold expandTasks
    rw [List.length_flatMap]
    have : (List.map (List.length ∘ fun r : Runner =>
        (List.range' 1 n).map fun i => Task.mk r.provider r.model r.label i) rs)
        = List.map (fun _ => n) rs := by
      apply List.map_congr_left
      intro r _
      simp [List.length_range']
    rw [this]
    simp [List.map_const]
  · unfold expandTasks
    rw [List.map_flatMap]
    rw [List.nodup_flatMap]
    constructor
    · intro r _
      rw [List.map_map]
      apply List.Nodup.map
      · intro i j hij
        simpa [taskKey] using hij
      · exact List.nodup_range' 1 n
    · have hpw : rs.Pairwise (fun a b => a.label ≠ b.label) := by
        rw [← List.pairwise_map (f := Runner.label)]
        exact hlab
      apply hpw.imp
      intro a b hne
      intro k hka hkb
      simp only [List.map_map, List.mem_map, Function.comp] at hka hkb
      obtain ⟨i, _, hi⟩ := hka
      obtain ⟨j, _, hj⟩ := hkb
      apply hne
      have : (a.label, i) = (b.label, j) := by
        rw [show ((a.label, i) : String × Nat) = taskKey ⟨a.provider, a.model, a.label, i⟩ from rfl]
        rw [show ((b.label, j) : String × Nat) = taskKey ⟨b.provider, b.model, b.label, j⟩ from rfl]
        rw [hi, hj]
      exact (Prod.mk.injEq _ _ _ _).mp this |>.1

/-- Witness for C3 (amended): `--models "gemini,codex"` with two iterations
yields four tasks with pairwise-distinct keys. -/
theorem claim_C3_witness :
    (expandTasks [⟨.gemini, "gm", "gemini__gm"⟩, ⟨.codex, "cm", "codex__cm"⟩] 2).length = 2 * 2
    ∧ ((expandTasks [⟨.gemini, "gm", "gemini__gm"⟩, ⟨.codex, "cm", "codex__cm"⟩] 2).map
        taskKey).Nodup :=
  claim_C3_expansion [⟨.gemini, "gm", "gemini__gm"⟩, ⟨.codex, "cm", "codex__cm"⟩] 2
    (by decide) (by decide) (by decide)

/-! ## C7 — merge-model resolution priority -/

theorem findCodexModel_append (l₁ l₂ : List Runner) :
    findCodexModel (l₁ ++ l₂) = (findCodexModel l₁).or (findCodexModel l₂) := by
  unfold findCodexModel
  exact List.findSome?_append

theorem findCodexModel_ne_empty {rs : List Runner} {m : String}
    (h : findCodexModel rs = some m) : m ≠ "" := by
  induction rs with
  | nil => simp [findCodexModel] at h
  | cons r rest ih =>
    unfold findCodexModel at h
    rw [List.findSome?_cons] at h
    by_cases hc : r.provider = .codex ∧ r.model ≠ ""
    · simp [hc] at h
      rw [← h]
      exact hc.2
    · simp [hc] at h
      exact ih h

/-- Loop invariant of model parsing: `found_codex_model` always equals the
first codex entry with a non-empty model among the runners accumulated so
far. -/
theorem parseModelsGo_found (gd cd : String) (raws : List (List Char)) :
    ∀ (acc : List Runner) (found : Option String),
    found = findCodexModel acc →
    ∀ {rs : List Runner} {f : Option String},
    parseModelsGo gd cd raws acc found = .ok (rs, f) →
    f = findCodexModel rs := by
  induction raws with
  | nil =>
    intro acc found hinv rs f h
    unfold parseModelsGo at h
    split at h
    · cases h
    · cases h
      exact hinv
  | cons e rest ih =>
    intro acc found hinv rs f h
    unfold parseModelsGo at h
    cases hentry : mkRunsEntry gd cd e with
    | error msg => rw [hentry] at h; cases h
    | ok r? =>
      rw [hentry] at h
      cases r? with
      | none => exact ih acc found hinv h
      | some r =>
        refine ih (acc ++ [r]) _ ?_ h
        rw [findCodexModel_append]
        by_cases hnone : found = none
        · subst hnone
          have hacc : findCodexModel acc = none := hinv.symm
          rw [hacc]
          by_cases hc : r.provider = .codex ∧ r.model ≠ ""
          · simp [hc, findCodexModel, List.findSome?_cons]
          · simp [hc, findCodexModel, List.findSome?_cons]
        · obtain ⟨m, hm⟩ := Option.ne_none_iff_exists'.mp hnone
          subst hm
          have hacc : findCodexModel acc = some m := hinv.symm
          rw [hacc]
          simp

theorem parseModels_found {csv gd cd : String} {rs : List Runner} {f : Option String}
    (h : parseModels csv gd cd = .ok (rs, f)) : f = findCodexModel rs :=
  parseModelsGo_found gd cd _ [] none rfl h

/-- C7: the merge model is resolved as: the explicit caller override when one
was given; otherwise (the merge provider then being codex) the first codex
model among the parsed fan-out runners; otherwise the configured default
codex model. -/
theorem claim_C7_merge_model_priority (csv gd cd : String) (override : Option String)
    (rs : List Runner) (found : Option String)
    (hparse : parseModels csv gd cd = .ok (rs, found)) :
    found = findCodexModel rs
    ∧ (∀ m, override = some m → m ≠ "" → resolveMergeModel override found cd = m)
    ∧ (pyTruthy override = false →
        mergeProviderOf override = .codex
        ∧ resolveMergeModel override found cd = (findCodexModel rs).getD cd) := by
  have hfound := parseModels_found hparse
  refine ⟨hfound, ?_, ?_⟩
  · intro m hm hne
    subst hm
    unfold resolveMergeModel
    simp [pyTruthy, hne]
  · intro hfalse
    constructor
    · unfold mergeProviderOf
      cases override with
      | none => rfl
      | some m =>
        simp [pyTruthy] at hfalse
        simp [hfalse]
    · unfold resolveMergeModel
      rw [hfalse]
      simp only [Bool.false_eq_true, if_false]
      subst hfound
      cases hfc : findCodexModel rs with
      | none => simp [pyTruthy]
      | some m =>
        have hne := findCodexModel_ne_empty hfc
        simp [pyTruthy, hne]

/-- Witness for C7: with `--models "gemini,codex:m1,codex:m2"` and no
override, the merge model resolves to `m1`, the first codex fan-out model. -/
theorem claim_C7_witness :
    (some "m1" : Option String)
      = findCodexModel [⟨.gemini, "gm", "gemini__gm"⟩, ⟨.codex, "m1", "codex__m1"⟩,
          ⟨.codex, "m2", "codex__m2"⟩]
    ∧ (∀ m, (none : Option String) = some m → m ≠ "" →
        resolveMergeModel none (some "m1") "cd" = m)
    ∧ (pyTruthy none = false →
        mergeProviderOf none = .codex
        ∧ resolveMergeModel none (some "m1") "cd"
          = (findCodexModel [⟨.gemini, "gm", "gemini__gm"⟩, ⟨.codex, "m1", "codex__m1"⟩,
              ⟨.codex, "m2", "codex__m2"⟩]).getD "cd") :=
  claim_C7_merge_model_priority "gemini,codex:m1,codex:m2" "gm" "cd" none
    [⟨.gemini, "gm", "gemini__gm"⟩, ⟨.codex, "m1", "codex__m1"⟩, ⟨.codex, "m2", "codex__m2"⟩]
    (some "m1") (by decide)

/-! ## C4 — merge prompt assembly -/

theorem join_candidateChunks (results : List CandidateFile) :
    String.join (results.flatMap candidateChunks)
      = String.join (results.map fun c =>
          "\n--- " ++ c.1 ++ " ---\n<<<\n" ++ c.2.getD "[File missing]" ++ "\n>>>\n") := by
  induction results with
  | nil => rfl
  | cons c rest ih =>
    apply String.ext
    have ihd := congrArg String.data ih
    simp only [String.join_eq, List.flatMap_cons, List.map_cons, List.map_append,
      List.flatten_append, List.flatten_cons, candidateChunks, String.data_append] at ihd ⊢
    rw [ihd]
    simp

/-- The sequential `f.write` calls produce exactly the one fixed-order
concatenation the specification describes. -/
theorem mergePromptContent_eq_spec (instruction ctx canon : String)
    (results : List CandidateFile) :
    mergePromptContent instruction ctx canon results
      = specMergePrompt instruction ctx canon results := by
  unfold mergePromptContent specMergePrompt mergeWriteChunks
  rw [← join_candidateChunks]
  by_cases hctx : ctx = "" <;>
    apply String.ext <;>
    simp [hctx, String.join_eq, String.data_append]

/-- C4: the merge step's first observable action writes the composite
merge-prompt artifact, whose content is the fixed-order concatenation of the
resolved instruction, the merge context block (when non-empty), the original
canonical prompt verbatim, every candidate output wrapped in a banner naming
its artifact file in the given (sorted) order, and the closing marker; the
whole merge step performs exactly one Provider Invoker call; and the
instruction is the caller override when supplied (file or text), else the
built-in default. -/
theorem claim_C4_merge_assembly (instruction ctx canon : String)
    (results : List CandidateFile) (pre post : Bool) (provider : Provider)
    (model : String) (success : Bool) (fmt : String) :
    (mergeEvents instruction ctx canon results pre post provider model success fmt).head?
      = some (.writePromptArtifact (specMergePrompt instruction ctx canon results))
    ∧ (mergeEvents instruction ctx canon results pre post provider model success
        fmt).countP isInvoke = 1
    ∧ resolveInstruction none none = .ok defaultMergeInstruction
    ∧ (∀ t, t ≠ "" → resolveInstruction none (some t) = .ok t)
    ∧ (∀ content ptext, resolveInstruction (some (true, content)) ptext = .ok content) := by
  refine ⟨?_, ?_, rfl, ?_, ?_⟩
  · unfold mergeEvents
    rw [mergePromptContent_eq_spec]
    rfl
  · unfold mergeEvents
    cases pre <;> cases post <;>
      by_cases h1 : success && fmt = "rtf" <;> by_cases h2 : success && fmt = "docx" <;>
        simp [h1, h2, List.countP_append, List.countP_cons, isInvoke]
  · intro t ht
    unfold resolveInstruction
    simp [pyTruthy, ht]
  · intro content ptext
    rfl

/-- Witness for C4: a concrete merge with one candidate writes the spec
concatenation first, makes one invocation, and honours a text override. -/
theorem claim_C4_witness :
    (mergeEvents "I" "" "P" [("a.txt", some "A")] true true .codex "m" true "txt").head?
      = some (.writePromptArtifact (specMergePrompt "I" "" "P" [("a.txt", some "A")]))
    ∧ (mergeEvents "I" "" "P" [("a.txt", some "A")] true true .codex "m" true
        "txt").countP isInvoke = 1
    ∧ resolveInstruction none (some "custom") = .ok "custom" :=
  ⟨(claim_C4_merge_assembly "I" "" "P" [("a.txt", some "A")] true true .codex "m" true
      "txt").1,
   (claim_C4_merge_assembly "I" "" "P" [("a.txt", some "A")] true true .codex "m" true
      "txt").2.1,
   (claim_C4_merge_assembly "I" "" "P" [("a.txt", some "A")] true true .codex "m" true
      "txt").2.2.2.1 "custom" (by decide)⟩

/-! ## C6 — plain-text context ingestion -/

/-- C6 as stated is false on the code: the claim says the null-byte scan runs
*only if* UTF-8 decoding fails, but `process_context_files` performs the
null-byte scan on the raw bytes *before* attempting any decode.  The bytes
`b"ab\x00"` are valid UTF-8 (NUL is a valid code point), so per the claim the
file must not abort and its text must appear in the ContextBlock — yet the
code aborts the run with the "binary" error. -/
theorem claim_C6_counterexample :
    utf8Decode [97, 98, 0] = some ['a', 'b', Char.ofNat 0]
    ∧ processContextFiles (fun _ => "") (fun _ => "")
        [⟨"notes.txt", ".txt", [97, 98, 0], true⟩]
      = .error "Context file appears to be binary: notes.txt" :=
  ⟨by decide, by decide⟩

/-- C6 (amended): for an existing plain-text context file the null-byte scan
runs first — any raw content containing a NUL byte aborts the run, even when
it is valid UTF-8; otherwise the bytes are decoded as UTF-8, falling back to
the single-byte latin-1 decoding (with a reported warning) when UTF-8
decoding fails; and in any successfully ingested file list, every file's
extracted text appears in the ContextBlock framed by the banner naming its
source file. -/
theorem claim_C6_plain_text_ingestion (pdfX docxX : CtxFile → String)
    (nm sfx : String) (raw : List Nat)
    (hp : pyLower sfx.data ≠ ".pdf".data)
    (hd : pyLower sfx.data ≠ ".docx".data) :
    (raw.contains 0 = true →
      processOneCtxFile pdfX docxX ⟨nm, sfx, raw, true⟩
        = .error ("Context file appears to be binary: " ++ nm))
    ∧ (raw.contains 0 = false → ∀ cs, utf8Decode raw = some cs →
        processOneCtxFile pdfX docxX ⟨nm, sfx, raw, true⟩ = .ok (⟨cs⟩, false))
    ∧ (raw.contains 0 = false → utf8Decode raw = none →
        processOneCtxFile pdfX docxX ⟨nm, sfx, raw, true⟩ = .ok (latin1Decode raw, true))
    ∧ (∀ (files : List CtxFile) (block : String),
        processContextFiles pdfX docxX files = .ok block →
        ∀ g ∈ files, ∃ t w, processOneCtxFile pdfX docxX g = .ok (t, w)
          ∧ ∃ l r, block = l ++ ctxBanner g.name t ++ r) := by
  refine ⟨?_, ?_, ?_, ?_⟩
  · intro hz
    have hz' : 0 ∈ raw := by simpa using hz
    unfold processOneCtxFile
    simp [hp, hd, hz']
  · intro hz cs hdec
    have hz' : 0 ∉ raw := by simpa using hz
    unfold processOneCtxFile
    simp [hp, hd, hz', hdec]
  · intro hz hdec
    have hz' : 0 ∉ raw := by simpa using hz
    unfold processOneCtxFile
    simp [hp, hd, hz', hdec]
  · intro files
    induction files with
    | nil =>
      intro block _ g hg
      cases hg
    | cons f₀ rest ih =>
      intro block hblock g hg
      unfold processContextFiles at hblock
      cases h₀ : processOneCtxFile pdfX docxX f₀ with
      | error msg => rw [h₀] at hblock; cases hblock
      | ok tw =>
        obtain ⟨t₀, w₀⟩ := tw
        rw [h₀] at hblock
        cases hrest : processContextFiles pdfX docxX rest with
        | error msg => rw [hrest] at hblock; cases hblock
        | ok restB =>
          rw [hrest] at hblock
          cases hblock
          cases hg with
          | head =>
            exact ⟨t₀, w₀, h₀, "", restB, by rw [String.empty_append]⟩
          | tail _ hgrest =>
            obtain ⟨t, w, hproc, l, r, hlr⟩ := ih restB hrest g hgrest
            exact ⟨t, w, hproc, ctxBanner f₀.name t₀ ++ l, r, by
              rw [hlr, ← String.append_assoc, ← String.append_assoc]⟩

/-- Witness for C6 (amended): a two-file list — one ASCII file and one file
that only decodes via the latin-1 fallback — ingests without aborting, and
the first file's text sits between its banner delimiters in the block. -/
theorem claim_C6_witness :
    (processOneCtxFile (fun _ => "") (fun _ => "") ⟨"a.txt", ".txt", [104, 105], true⟩
      = .ok ("hi", false))
    ∧ ∃ t w, processOneCtxFile (fun _ => "") (fun _ => "") ⟨"a.txt", ".txt", [104, 105], true⟩
        = .ok (t, w)
      ∧ ∃ l r, "[Context File: a.txt]\n<<<\nhi\n>>>\n[Context File: b.txt]\n<<<\nÿ\n>>>\n"
        = l ++ ctxBanner "a.txt" t ++ r := by
  have h := claim_C6_plain_text_ingestion (fun _ => "") (fun _ => "") "a.txt" ".txt"
    [104, 105] (by decide) (by decide)
  refine ⟨?_, ?_⟩
  · exact h.2.1 (by decide) ['h', 'i'] (by decide)
  · exact h.2.2.2
      [⟨"a.txt", ".txt", [104, 105], true⟩, ⟨"b.txt", ".txt", [0xFF], true⟩]
      "[Context File: a.txt]\n<<<\nhi\n>>>\n[Context File: b.txt]\n<<<\nÿ\n>>>\n"
      (by decide) ⟨"a.txt", ".txt", [104, 105], true⟩ (by decide)

end LLMEnsemble
